import Mathlib

/-!
Verification of the s3-proxy repository's request-serving core.

The definitions below are a shallow embedding of the Go source:
`internal/cache/cache.go` (LRU cache with freshness and stale windows),
`internal/server/middleware.go` (policy helpers, auth token check, the
object handler's decision sequence, and the asynchronous revalidation
task), and the status derivation of `internal/origin/s3.go`.

Modelling conventions:
- wall-clock instants and durations are `Int` (a fixed abstract unit);
  `time.Time.Before` becomes `<` on `Int`, the zero `time.Time` becomes
  `Option.none` for `lastModified` fields;
- byte payloads are `List Nat`;
- Go strings are Lean `String`; the `strings` package functions used by
  the source (`ToLower`, `Contains`, `CutPrefix`, `TrimSpace`,
  `TrimPrefix`, `SplitSeq`) are re-implemented below on character lists;
- an `http.Header` is reduced to the fields the embedded code reads
  (`Cache-Control`, `Content-Range`); an `*http.Request` is reduced to
  the method, path, and the header values the handler reads;
- the origin body stream is a byte list plus a read-failure flag and a
  cursor: a buffered read consumes a prefix of the stream, a later
  `io.Copy` writes only the bytes after the cursor (a failing stream is
  modelled as failing before the first byte);
- in-place pointer mutation (`Cache.Set` rewriting the caller's entry)
  is modelled by returning the record the caller's pointer sees after
  the call, alongside the new cache state.
-/

/-! ## String helpers (Go `strings` package) -/

/-- Test `leadsWith s pat`: `s` starts with `pat` (character lists). -/
def leadsWith : List Char → List Char → Bool
  | _, [] => true
  | [], _ :: _ => false
  | c :: cs, d :: ds => c == d && leadsWith cs ds

/-- Substring containment on character lists (Go `strings.Contains`). -/
def containsSub : List Char → List Char → Bool
  | [], pat => pat.isEmpty
  | s@(_ :: rest), pat => leadsWith s pat || containsSub rest pat

/-- Go `strings.Contains`. -/
def strContains (s pat : String) : Bool :=
  containsSub s.toList pat.toList

/-- Go `strings.CutPrefix` via `cutLead s pat` on character lists — the rest
of `s` after removing a leading `pat`, or `none`. -/
def cutLead : List Char → List Char → Option (List Char)
  | s, [] => some s
  | [], _ :: _ => none
  | c :: cs, d :: ds => if c == d then cutLead cs ds else none

/-- Go `strings.CutPrefix` on strings. -/
def strCut (s pat : String) : Option String :=
  (cutLead s.toList pat.toList).map fun l => String.mk l

/-- ASCII lowercase of a string (Go `strings.ToLower` on the inputs the
source feeds it). -/
def toLowerStr (s : String) : String :=
  String.mk (s.toList.map Char.toLower)

/-- Whitespace class used by Go `strings.TrimSpace` (ASCII part). -/
def isSpaceChar (c : Char) : Bool :=
  c == ' ' || c == '\t' || c == '\n' || c == '\r'

/-- Go `strings.TrimSpace`. -/
def trimSpace (s : String) : String :=
  String.mk (((s.toList.dropWhile isSpaceChar).reverse.dropWhile isSpaceChar).reverse)

/-- Go `strings.TrimPrefix(path, "/")`: removes one leading slash. -/
def trimLeadSlash (s : String) : String :=
  match s.toList with
  | '/' :: rest => String.mk rest
  | _ => s

/-- Decimal digit value. -/
def digitVal (c : Char) : Option Nat :=
  if '0' ≤ c && c ≤ '9' then some (c.toNat - '0'.toNat) else none

/-- Parse a nonempty digit run. -/
def parseDigits : List Char → Option Nat
  | [] => none
  | cs =>
    cs.foldl
      (fun acc c =>
        match acc, digitVal c with
        | some n, some d => some (n * 10 + d)
        | _, _ => none)
      (some 0)

/-- Split a character list on commas (Go `strings.SplitSeq(s, ",")`). -/
def splitOnComma : List Char → List (List Char)
  | [] => [[]]
  | c :: rest =>
    if c == ',' then [] :: splitOnComma rest
    else
      match splitOnComma rest with
      | [] => [[c]]
      | g :: gs => (c :: g) :: gs

/-- Go `strings.SplitSeq(s, ",")` on strings. -/
def splitCommaStr (s : String) : List String :=
  (splitOnComma s.toList).map fun l => String.mk l

/-- Go `strconv.Atoi` (decimal, optional sign). -/
def parseIntStr (s : String) : Option Int :=
  match s.toList with
  | '-' :: rest => (parseDigits rest).map fun n => -(n : Int)
  | '+' :: rest => (parseDigits rest).map fun n => (n : Int)
  | l => (parseDigits l).map fun n => (n : Int)

/-! ## Data model: `internal/cache/cache.go` -/

/-- The header fields of an `http.Header` that the embedded code reads. -/
structure HeaderMap where
  cacheControl : String
  contentRange : String
  deriving DecidableEq

/-- Structure `cache.Entry` (cache.go lines 11-21). `lastModified = none` models the
zero `time.Time`. -/
structure Entry where
  body : List Nat
  header : HeaderMap
  status : Nat
  storedAt : Int
  ttl : Int
  staleTTL : Int
  size : Int
  etag : String
  lastModified : Option Int
  deriving DecidableEq

/-- Method `Entry.Fresh` (cache.go line 23): `now.Before(e.StoredAt.Add(e.TTL))`. -/
def Entry.Fresh (e : Entry) (now : Int) : Bool :=
  decide (now < e.storedAt + e.ttl)

/-- Method `Entry.StaleButValid` (cache.go line 27):
`now.Before(e.StoredAt.Add(e.TTL + e.StaleTTL))`. -/
def Entry.StaleButValid (e : Entry) (now : Int) : Bool :=
  decide (now < e.storedAt + e.ttl + e.staleTTL)

/-- LRU state, most-recently-used first (the `hashicorp/golang-lru` list
behind `Cache`). -/
abbrev LruState := List (String × Entry)

/-- Key presence in the LRU. -/
def lruHasKey (st : LruState) (k : String) : Bool :=
  st.any fun p => p.1 == k

/-- Operation `lru.Add` of `hashicorp/golang-lru`: an existing key is updated and
moved to the front with no eviction; a new key is pushed to the front and
the oldest entry is evicted when the length exceeds the capacity. -/
def lruAdd (cap : Nat) (st : LruState) (k : String) (e : Entry) : LruState :=
  if lruHasKey st k then
    (k, e) :: st.filter fun p => p.1 != k
  else
    let st2 : List (String × Entry) := (k, e) :: st
    if cap < st2.length then st2.dropLast else st2

/-- The default-TTL substitution performed at the top of `Cache.Set`
(cache.go lines 67-72): `if entry.TTL == 0 ... ; if entry.StaleTTL == 0 ...`.
Since Go mutates the record behind the caller's pointer, this function is
the record the caller's pointer sees after `Set`. -/
def setNormalize (ttl stale : Int) (e : Entry) : Entry :=
  let e1 := if e.ttl == 0 then { e with ttl := ttl } else e
  if e1.staleTTL == 0 then { e1 with staleTTL := stale } else e1

/-- Operation `Cache.Set` (cache.go lines 64-74): normalize the entry in place, then
`lru.Add`. Returns the new LRU state and the caller-visible record. -/
def cacheSet (cap : Nat) (ttl stale : Int) (st : LruState) (k : String) (e : Entry) :
    LruState × Entry :=
  let e2 := setNormalize ttl stale e
  (lruAdd cap st k e2, e2)

/-- Operation `Cache.Stats` (cache.go lines 82-86): `(lru.Len(), cap)`. -/
def cacheStats (cap : Nat) (st : LruState) : Nat × Nat :=
  (st.length, cap)

/-- A sequence of `Set` operations starting from an empty cache. -/
def runSets (cap : Nat) (ttl stale : Int) (ops : List (String × Entry)) : LruState :=
  ops.foldl (fun st p => (cacheSet cap ttl stale st p.1 p.2).1) []

/-! ## Auth: `checkToken` (middleware.go lines 52-77) -/

/-- The request fields the embedded handler and middleware read. -/
structure Request where
  method : String
  path : String
  rangeH : String
  cacheControl : String
  pragma : String
  ifNoneMatch : String
  ifModifiedSince : Option Int
  xAuthToken : String
  authorization : String
  queryToken : String
  deriving DecidableEq

/-- Function `subtleConstantTimeEquals` (middleware.go lines 69-77): empty either
side rejects, length mismatch rejects, otherwise constant-time equality
(functionally plain equality). -/
def subtleConstantTimeEquals (a b : String) : Bool :=
  if a.length == 0 || b.length == 0 then false
  else if a.length != b.length then false
  else a == b

/-- Function `checkToken` (middleware.go lines 52-67): empty configured token
accepts everything; otherwise the token is taken from `X-Auth-Token`,
else cut from the lowercased `Authorization` header after `"bearer "`
and trimmed, else from the `token` query parameter. -/
def checkToken (r : Request) (expected : String) : Bool :=
  if expected == "" then true
  else
    let token := r.xAuthToken
    let token :=
      if token == "" then
        match strCut (toLowerStr r.authorization) "bearer " with
        | some value => trimSpace value
        | none => ""
      else token
    let token := if token == "" then r.queryToken else token
    subtleConstantTimeEquals token expected

/-! ## Policy helpers (middleware.go lines 385-461) -/

/-- Function `shouldUseCache` (middleware.go lines 385-401). Note the source uses
`strings.Contains` on the lowercased header values: plain substring
containment, not token membership. -/
def shouldUseCache (r : Request) : Bool :=
  if r.method != "GET" then false
  else if r.rangeH != "" then false
  else if strContains (toLowerStr r.cacheControl) "no-cache" ||
      strContains (toLowerStr r.cacheControl) "max-age=0" then false
  else if strContains (toLowerStr r.pragma) "no-cache" then false
  else true

/-- Function `hasNoStore` (middleware.go lines 438-441). -/
def hasNoStore (h : HeaderMap) : Bool :=
  strContains (toLowerStr h.cacheControl) "no-store"

/-- The scan over comma-separated `Cache-Control` parts inside
`ttlFromHeaders` (middleware.go lines 423-433). Durations are in the
abstract time unit. -/
def scanMaxAge (parts : List String) (fallback : Int) : Int :=
  match parts with
  | [] => fallback
  | part :: rest =>
    let p := trimSpace (toLowerStr part)
    match strCut p "max-age=" with
    | some value =>
      match parseIntStr value with
      | some secs => if secs ≤ 0 then 0 else secs
      | none => scanMaxAge rest fallback
    | none => scanMaxAge rest fallback

/-- Function `ttlFromHeaders` (middleware.go lines 421-436). -/
def ttlFromHeaders (h : HeaderMap) (fallback : Int) : Int :=
  if h.cacheControl != "" then scanMaxAge (splitCommaStr h.cacheControl) fallback
  else fallback

/-- Structure `origin.Conditional` (s3.go lines 31-35). -/
structure Conditional where
  ifNoneMatch : String
  ifModifiedSince : Option Int
  rangeH : String
  deriving DecidableEq

/-- Function `buildConditional` (middleware.go lines 450-461). The request's
`If-Modified-Since` field is carried already parsed (`none` models both
an absent and a malformed header, which the source drops). -/
def buildConditional (r : Request) : Conditional :=
  { ifNoneMatch := if r.ifNoneMatch != "" then r.ifNoneMatch else ""
    ifModifiedSince := r.ifModifiedSince
    rangeH := "" }

/-! ## Origin model: `internal/origin/s3.go` -/

/-- Structure `origin.Object` restricted to the fields the handler reads. `bytes`
is the full content behind the body stream; `readErr = true` models a
stream whose reads fail (before the first byte). -/
structure Object where
  bytes : List Nat
  readErr : Bool
  headers : HeaderMap
  statusCode : Nat
  contentLength : Int
  etag : String
  lastModified : Option Int
  deriving DecidableEq

/-- The status derivation of `toObject` (s3.go lines 97 and 173-175): a
`GetObject` success starts at 200, and a nonempty `Content-Range`
rewrites it to 206 Partial Content. -/
def toObjectStatus (contentRange : String) : Nat :=
  if contentRange != "" then 206 else 200

/-- The outcome of one origin fetch as seen by the handler: a success
object, or one of the translated errors (s3.go lines 232-253). -/
inductive OriginResult where
  | success (obj : Object)
  | notFound
  | notModified
  | precondition
  | transport
  deriving DecidableEq

/-- Model of `io.ReadAll(io.LimitReader(obj.Body, limit))` on a fresh stream:
fails when the stream fails, otherwise yields the first `limit` bytes
(consuming them from the stream). -/
def readAllLimited (obj : Object) (limit : Int) : Option (List Nat) :=
  if obj.readErr then none else some (obj.bytes.take limit.toNat)

/-! ## The object handler (middleware.go lines 151-360) -/

/-- The configuration fields the handler reads. -/
structure Config where
  maxObjectSize : Int
  cacheTTL : Int
  cacheStaleTTL : Int
  deriving DecidableEq

/-- What one handler invocation did: status and body bytes written to the
client, `X-Cache` value if set, the single `cache.Set` performed (key and
the stored record, after `Set`'s own normalization), whether an
asynchronous revalidation was scheduled, and whether the origin was
fetched at all. -/
structure HandlerOutcome where
  status : Nat
  bodyWritten : List Nat
  xCache : Option String
  setOp : Option (String × Entry)
  revalScheduled : Bool
  fetched : Bool
  deriving DecidableEq

/-- The entry hint the handler holds after the lookup phase
(middleware.go lines 170-176): the cache is only consulted when
`useCache || method == HEAD`. -/
def hintEntry (r : Request) (cached : Option Entry) : Option Entry :=
  if shouldUseCache r || r.method == "HEAD" then cached else none

/-- The outgoing conditional of Step 3 (middleware.go lines 191-203):
client conditional, with `If-None-Match`/`If-Modified-Since` injected
from the hint entry when the client omitted them, and the client `Range`
copied for GET. -/
def outgoingCond (r : Request) (entry : Option Entry) : Conditional :=
  let cond := buildConditional r
  let cond :=
    match entry with
    | some e =>
      let c1 :=
        if e.etag != "" && cond.ifNoneMatch == "" then
          { cond with ifNoneMatch := e.etag }
        else cond
      if e.lastModified.isSome && c1.ifModifiedSince.isNone then
        { c1 with ifModifiedSince := e.lastModified }
      else c1
    | none => cond
  if r.method == "GET" then { cond with rangeH := r.rangeH } else cond

/-- The `shouldStore` condition of middleware.go line 214. -/
def storeWanted (cfg : Config) (r : Request) (cond : Conditional) (obj : Object) : Bool :=
  shouldUseCache r && r.method == "GET" && cond.rangeH == "" &&
    obj.statusCode == 200 && decide (0 < obj.contentLength) &&
    decide (obj.contentLength ≤ cfg.maxObjectSize) && !hasNoStore obj.headers

/-- The pass-through tail of the handler (middleware.go lines 246-261):
origin headers copied, `X-Cache: MISS`, origin status written, and the
body stream copied to the client from its current position (`consumed`
bytes already drained by a prior buffered read). HEAD skips the body. -/
def passThrough (r : Request) (obj : Object) (consumed : Nat) : HandlerOutcome :=
  { status := obj.statusCode
    bodyWritten :=
      if r.method == "HEAD" then []
      else if obj.readErr then [] else obj.bytes.drop consumed
    xCache := some "MISS"
    setOp := none
    revalScheduled := false
    fetched := true }

/-- The `Success` branch of the handler (middleware.go lines 214-261):
admission buffering with the `MaxObjectSize + 1` limit, 502 on a read
error, overflow abandons admission and streams the remainder, otherwise
the new entry is built (with the `TTL <= 0` fallback guard of lines
237-239) and admitted, serving MISS from the buffer. -/
def successPhase (cfg : Config) (r : Request) (cond : Conditional) (now : Int)
    (obj : Object) (key : String) : HandlerOutcome :=
  if storeWanted cfg r cond obj then
    match readAllLimited obj (cfg.maxObjectSize + 1) with
    | none =>
      { status := 502, bodyWritten := [], xCache := none, setOp := none,
        revalScheduled := false, fetched := true }
    | some body =>
      if (body.length : Int) > cfg.maxObjectSize then
        passThrough r obj body.length
      else
        let e : Entry :=
          { body := body
            header := obj.headers
            status := obj.statusCode
            storedAt := now
            ttl := ttlFromHeaders obj.headers cfg.cacheTTL
            staleTTL := cfg.cacheStaleTTL
            size := (body.length : Int)
            etag := obj.etag
            lastModified := obj.lastModified }
        let e := if e.ttl ≤ 0 then { e with ttl := cfg.cacheTTL } else e
        { status := e.status
          bodyWritten := if r.method == "HEAD" then [] else e.body
          xCache := some "MISS"
          setOp := some (key, setNormalize cfg.cacheTTL cfg.cacheStaleTTL e)
          revalScheduled := false
          fetched := true }
  else passThrough r obj 0

/-- Steps 3-6 of the handler once the origin is consulted: conditional
composition, fetch dispatch on the outcome (`handleOriginError`,
middleware.go lines 279-302), and the `Success` admission branch. -/
def originPhase (cfg : Config) (r : Request) (entry : Option Entry) (now : Int)
    (orig : OriginResult) (key : String) : HandlerOutcome :=
  let cond := outgoingCond r entry
  match orig with
  | .success obj => successPhase cfg r cond now obj key
  | .notModified =>
    match entry with
    | some e =>
      let e2 := { e with storedAt := now }
      { status := e2.status
        bodyWritten := if r.method == "HEAD" then [] else e2.body
        xCache := some "REVALIDATED"
        setOp := some (key, setNormalize cfg.cacheTTL cfg.cacheStaleTTL e2)
        revalScheduled := false
        fetched := true }
    | none =>
      { status := 304, bodyWritten := [], xCache := none, setOp := none,
        revalScheduled := false, fetched := true }
  | .notFound =>
    { status := 404, bodyWritten := [], xCache := none, setOp := none,
      revalScheduled := false, fetched := true }
  | .precondition =>
    { status := 412, bodyWritten := [], xCache := none, setOp := none,
      revalScheduled := false, fetched := true }
  | .transport =>
    { status := 502, bodyWritten := [], xCache := none, setOp := none,
      revalScheduled := false, fetched := true }

/-- Function `objectHandler` (middleware.go lines 151-261). `cached` is what
`s.cache.Get(cKey)` would return; `orig` is the outcome the origin would
give for the outgoing fetch; `now` is the instant sampled at line 169. -/
def objectHandler (cfg : Config) (r : Request) (cached : Option Entry) (now : Int)
    (orig : OriginResult) : HandlerOutcome :=
  let key := trimLeadSlash r.path
  if key == "" then
    { status := 404, bodyWritten := [], xCache := none, setOp := none,
      revalScheduled := false, fetched := false }
  else if strContains key ".." then
    { status := 400, bodyWritten := [], xCache := none, setOp := none,
      revalScheduled := false, fetched := false }
  else if r.method != "GET" && r.method != "HEAD" then
    { status := 405, bodyWritten := [], xCache := none, setOp := none,
      revalScheduled := false, fetched := false }
  else
    match hintEntry r cached with
    | some e =>
      if e.Fresh now then
        { status := e.status
          bodyWritten := if r.method == "HEAD" then [] else e.body
          xCache := some "HIT"
          setOp := none
          revalScheduled := false
          fetched := false }
      else if shouldUseCache r && e.StaleButValid now && r.method == "GET" then
        { status := e.status
          bodyWritten := if r.method == "HEAD" then [] else e.body
          xCache := some "STALE"
          setOp := none
          revalScheduled := true
          fetched := false }
      else originPhase cfg r (some e) now orig key
    | none => originPhase cfg r none now orig key

/-- The asynchronous `revalidate` task (middleware.go lines 316-360):
given the stale entry it was spawned with and the outcome of its
conditional fetch, returns the `cache.Set` it performs, if any (key and
stored record after `Set` normalization). A 304 re-freshens `storedAt`;
a success within the size bounds whose read stays within budget replaces
the entry (note: with no check on the object's status). -/
def revalidate (cfg : Config) (key : String) (entry : Entry) (now : Int)
    (orig : OriginResult) : Option (String × Entry) :=
  match orig with
  | .notModified =>
    some (key, setNormalize cfg.cacheTTL cfg.cacheStaleTTL { entry with storedAt := now })
  | .success obj =>
    if obj.contentLength ≤ 0 || obj.contentLength > cfg.maxObjectSize then none
    else
      match readAllLimited obj (cfg.maxObjectSize + 1) with
      | none => none
      | some body =>
        if (body.length : Int) > cfg.maxObjectSize then none
        else
          let updated : Entry :=
            { body := body
              header := obj.headers
              status := obj.statusCode
              storedAt := now
              ttl := ttlFromHeaders obj.headers cfg.cacheTTL
              staleTTL := cfg.cacheStaleTTL
              size := (body.length : Int)
              etag := obj.etag
              lastModified := obj.lastModified }
          some (key, setNormalize cfg.cacheTTL cfg.cacheStaleTTL updated)
  | _ => none

/-! ## Spec-side comparison definition for claim C6 -/

/-- Comma-separated, trimmed, lowercased tokens of a header value. -/
def splitTokensCC (h : String) : List String :=
  (splitCommaStr h).map fun t => trimSpace (toLowerStr t)

/-- Modelled from the spec, for refinement comparison only (not from the
source): `shouldUseCache` as the spec words it — "true iff method is GET,
`Range` header absent, `Cache-Control` contains neither `no-cache` nor
`max-age=0`, `Pragma` does not contain `no-cache`. Matching is
case-insensitive, token-membership, whitespace-tolerant." -/
def specShouldUseCache (r : Request) : Bool :=
  r.method == "GET" && r.rangeH == "" &&
    !(splitTokensCC r.cacheControl).contains "no-cache" &&
    !(splitTokensCC r.cacheControl).contains "max-age=0" &&
    !(splitTokensCC r.pragma).contains "no-cache"

/-! ## Concrete test fixtures -/

/-- A plain cacheable GET request for `/a.txt`. -/
def reqGet : Request :=
  { method := "GET", path := "/a.txt", rangeH := "", cacheControl := "",
    pragma := "", ifNoneMatch := "", ifModifiedSince := none,
    xAuthToken := "", authorization := "", queryToken := "" }

/-- A small configuration: `MaxObjectSize = 2`, `CacheTTL = 300`,
`CacheStaleTTL = 120` (abstract units). -/
def cfgSmall : Config := { maxObjectSize := 2, cacheTTL := 300, cacheStaleTTL := 120 }

/-- A cache entry stored at instant 0 with `ttl = 10`, `staleTtl = 5`. -/
def entryBase : Entry :=
  { body := [104, 105], header := { cacheControl := "", contentRange := "" },
    status := 200, storedAt := 0, ttl := 10, staleTTL := 5, size := 2,
    etag := "v1", lastModified := none }

/-- An origin success whose declared `Content-Length` (2) fits the limit
but whose stream actually holds 5 bytes. -/
def objLying : Object :=
  { bytes := [1, 2, 3, 4, 5], readErr := false,
    headers := { cacheControl := "", contentRange := "" },
    statusCode := 200, contentLength := 2, etag := "", lastModified := none }

/-- An origin success whose body stream fails on read. -/
def objReadErr : Object :=
  { bytes := [1, 2], readErr := true,
    headers := { cacheControl := "", contentRange := "" },
    statusCode := 200, contentLength := 2, etag := "", lastModified := none }

/-- A well-behaved cacheable origin success (2 bytes, status 200). -/
def objOk : Object :=
  { bytes := [1, 2], readErr := false,
    headers := { cacheControl := "", contentRange := "" },
    statusCode := 200, contentLength := 2, etag := "", lastModified := none }

/-- The entry the handler admits for `objOk` under `cfgSmall`. -/
def storedOk : Entry :=
  { body := [1, 2], header := { cacheControl := "", contentRange := "" },
    status := 200, storedAt := 0, ttl := 300, staleTTL := 120, size := 2,
    etag := "", lastModified := none }

/-- A partial-content origin success: `Content-Range` present, so
`toObject` derives status 206 (s3.go lines 173-175). -/
def obj206 : Object :=
  { bytes := [7], readErr := false,
    headers := { cacheControl := "", contentRange := "bytes 0-0/2" },
    statusCode := toObjectStatus "bytes 0-0/2", contentLength := 1,
    etag := "v2", lastModified := none }

/-- A `Set` sequence on two distinct keys. -/
def opsW : List (String × Entry) := [("a", entryBase), ("b", entryBase)]

/-- An entry admitted with `ttl = 0` (triggers the default substitution). -/
def entryZeroTTL : Entry := { entryBase with ttl := 0 }

/-! ## Helper lemmas -/

/-- The `setNormalize` step never changes the status field. -/
theorem setNormalize_status (t s : Int) (e : Entry) :
    (setNormalize t s e).status = e.status := by
  unfold setNormalize
  dsimp only
  split <;> split <;> rfl

/-- A handler invocation that consulted the origin is exactly the origin
phase applied to the hint entry and the trimmed key. -/
theorem handler_fetched_eq (cfg : Config) (r : Request) (cached : Option Entry)
    (now : Int) (orig : OriginResult)
    (h : (objectHandler cfg r cached now orig).fetched = true) :
    objectHandler cfg r cached now orig =
      originPhase cfg r (hintEntry r cached) now orig (trimLeadSlash r.path) := by
  by_cases h1 : trimLeadSlash r.path = ""
  · exact absurd (by simp [objectHandler, h1] at h) id
  by_cases h2 : strContains (trimLeadSlash r.path) ".." = true
  · exact absurd (by simp [objectHandler, h1, h2] at h) id
  have h2f : strContains (trimLeadSlash r.path) ".." = false := by
    cases hb : strContains (trimLeadSlash r.path) ".." <;> simp_all
  by_cases h3 : (r.method != "GET" && r.method != "HEAD") = true
  · exact absurd (by simp [objectHandler, h1, h2f, h3] at h) id
  have h3f : (r.method != "GET" && r.method != "HEAD") = false := by
    cases hb : (r.method != "GET" && r.method != "HEAD") <;> simp_all
  cases hent : hintEntry r cached with
  | none => simp [objectHandler, h1, h2f, h3f, hent]
  | some e =>
    by_cases hfr : e.Fresh now = true
    · exact absurd (by simp [objectHandler, h1, h2f, h3f, hent, hfr] at h) id
    have hfrf : e.Fresh now = false := by
      cases hb : e.Fresh now <;> simp_all
    by_cases hst : (shouldUseCache r && e.StaleButValid now && (r.method == "GET")) = true
    · exact absurd (by simp [objectHandler, h1, h2f, h3f, hent, hfrf, hst] at h) id
    have hstf : (shouldUseCache r && e.StaleButValid now && (r.method == "GET")) = false := by
      cases hb : (shouldUseCache r && e.StaleButValid now && (r.method == "GET")) <;> simp_all
    simp [objectHandler, h1, h2f, h3f, hent, hfrf, hstf]

/-- The admission condition `shouldStore`, spelled as the claim lists it. -/
theorem storeWanted_iff (cfg : Config) (r : Request) (cond : Conditional) (obj : Object) :
    storeWanted cfg r cond obj = true ↔
      (shouldUseCache r = true ∧ r.method = "GET" ∧ cond.rangeH = "" ∧
       obj.statusCode = 200 ∧ 0 < obj.contentLength ∧
       obj.contentLength ≤ cfg.maxObjectSize ∧ hasNoStore obj.headers = false) := by
  unfold storeWanted
  simp [Bool.and_eq_true, and_assoc, Bool.not_eq_true']

/-- The `setNormalize` step rewrites `ttl` exactly when it is zero. -/
theorem setNormalize_ttl (t s : Int) (e : Entry) :
    (setNormalize t s e).ttl = if e.ttl = 0 then t else e.ttl := by
  by_cases h : e.ttl = 0 <;> by_cases h2 : e.staleTTL = 0 <;>
    simp [setNormalize, h, h2]

/-- The `setNormalize` step rewrites `staleTTL` exactly when it is zero. -/
theorem setNormalize_staleTTL (t s : Int) (e : Entry) :
    (setNormalize t s e).staleTTL = if e.staleTTL = 0 then s else e.staleTTL := by
  by_cases h : e.ttl = 0 <;> by_cases h2 : e.staleTTL = 0 <;>
    simp [setNormalize, h, h2]

/-- The origin phase always marks the outcome as fetched. -/
theorem originPhase_fetched (cfg : Config) (r : Request) (entry : Option Entry)
    (now : Int) (orig : OriginResult) (key : String) :
    (originPhase cfg r entry now orig key).fetched = true := by
  cases orig with
  | success obj =>
    simp only [originPhase]
    unfold successPhase
    split
    · split
      · rfl
      · split
        · rfl
        · rfl
    · rfl
  | notModified =>
    simp only [originPhase]
    cases entry <;> rfl
  | notFound => rfl
  | precondition => rfl
  | transport => rfl

/-- A handler invocation that never consulted the origin performed no
cache mutation. -/
theorem handler_early_setOp (cfg : Config) (r : Request) (cached : Option Entry)
    (now : Int) (orig : OriginResult)
    (h : (objectHandler cfg r cached now orig).fetched = false) :
    (objectHandler cfg r cached now orig).setOp = none := by
  by_cases h1 : trimLeadSlash r.path = ""
  · simp [objectHandler, h1]
  by_cases h2 : strContains (trimLeadSlash r.path) ".." = true
  · simp [objectHandler, h1, h2]
  have h2f : strContains (trimLeadSlash r.path) ".." = false := by
    cases hb : strContains (trimLeadSlash r.path) ".." <;> simp_all
  by_cases h3 : (r.method != "GET" && r.method != "HEAD") = true
  · simp [objectHandler, h1, h2f, h3]
  have h3f : (r.method != "GET" && r.method != "HEAD") = false := by
    cases hb : (r.method != "GET" && r.method != "HEAD") <;> simp_all
  cases hent : hintEntry r cached with
  | none =>
    have heq : objectHandler cfg r cached now orig =
        originPhase cfg r none now orig (trimLeadSlash r.path) := by
      simp [objectHandler, h1, h2f, h3f, hent]
    rw [heq] at h
    rw [originPhase_fetched] at h
    cases h
  | some e =>
    by_cases hfr : e.Fresh now = true
    · simp [objectHandler, h1, h2f, h3f, hent, hfr]
    have hfrf : e.Fresh now = false := by
      cases hb : e.Fresh now <;> simp_all
    by_cases hst : (shouldUseCache r && e.StaleButValid now && (r.method == "GET")) = true
    · simp [objectHandler, h1, h2f, h3f, hent, hfrf, hst]
    have hstf : (shouldUseCache r && e.StaleButValid now && (r.method == "GET")) = false := by
      cases hb : (shouldUseCache r && e.StaleButValid now && (r.method == "GET")) <;> simp_all
    have heq : objectHandler cfg r cached now orig =
        originPhase cfg r (some e) now orig (trimLeadSlash r.path) := by
      simp [objectHandler, h1, h2f, h3f, hent, hfrf, hstf]
    rw [heq] at h
    rw [originPhase_fetched] at h
    cases h

/-- Any entry the origin phase stores either carries the hint entry's
status (the 304 re-admission) or the origin object's status, the latter
only when the object's status is 200. -/
theorem originPhase_setOp_status (cfg : Config) (r : Request) (entry : Option Entry)
    (now : Int) (orig : OriginResult) (key : String) (k : String) (e2 : Entry)
    (h : (originPhase cfg r entry now orig key).setOp = some (k, e2)) :
    (∃ e, entry = some e ∧ e2.status = e.status) ∨
    (∃ obj, orig = OriginResult.success obj ∧ e2.status = obj.statusCode ∧
      obj.statusCode = 200) := by
  cases orig with
  | success obj =>
    right
    refine ⟨obj, rfl, ?_⟩
    simp only [originPhase] at h
    unfold successPhase at h
    split at h
    · rename_i hw
      split at h
      · exact absurd h (by simp)
      · rename_i body hr
        split at h
        · exact absurd h (by simp [passThrough])
        · simp only [Option.some.injEq, Prod.mk.injEq] at h
          have hstat : e2.status = obj.statusCode := by
            rw [← h.2, setNormalize_status]
            split <;> rfl
          refine ⟨hstat, ?_⟩
          have := (storeWanted_iff cfg r (outgoingCond r entry) obj).mp hw
          exact this.2.2.2.1
    · exact absurd h (by simp [passThrough])
  | notModified =>
    left
    simp only [originPhase] at h
    cases entry with
    | none => exact absurd h (by simp)
    | some e =>
      simp only [Option.some.injEq, Prod.mk.injEq] at h
      exact ⟨e, rfl, by rw [← h.2, setNormalize_status]⟩
  | notFound => exact absurd h (by simp [originPhase])
  | precondition => exact absurd h (by simp [originPhase])
  | transport => exact absurd h (by simp [originPhase])

/-- The buffered read fails exactly when the stream fails. -/
theorem readAllLimited_eq_none (obj : Object) (limit : Int) :
    readAllLimited obj limit = none ↔ obj.readErr = true := by
  unfold readAllLimited
  split <;> simp_all

/-- The buffered read yields exactly the first `limit` bytes when the
stream works. -/
theorem readAllLimited_eq_some (obj : Object) (limit : Int) (body : List Nat) :
    readAllLimited obj limit = some body ↔
      (obj.readErr = false ∧ body = obj.bytes.take limit.toNat) := by
  unfold readAllLimited
  split <;> simp_all
  exact eq_comm

/-- The `Success` branch admits an entry iff `shouldStore` holds and the
buffered read succeeds without exceeding the limit. -/
theorem successPhase_setOp_isSome (cfg : Config) (r : Request) (cond : Conditional)
    (now : Int) (obj : Object) (key : String) :
    (successPhase cfg r cond now obj key).setOp.isSome = true ↔
      (storeWanted cfg r cond obj = true ∧ obj.readErr = false ∧
       ((obj.bytes.take (cfg.maxObjectSize + 1).toNat).length : Int) ≤
         cfg.maxObjectSize) := by
  unfold successPhase
  split
  · rename_i hw
    split
    · rename_i hr
      rw [readAllLimited_eq_none] at hr
      refine iff_of_false (by simp) ?_
      rintro ⟨-, he, -⟩
      rw [hr] at he
      cases he
    · rename_i body hr
      rw [readAllLimited_eq_some] at hr
      obtain ⟨he, hbody⟩ := hr
      subst hbody
      split
      · rename_i hov
        refine iff_of_false (by simp [passThrough]) ?_
        rintro ⟨-, -, hle⟩
        exact absurd hov (not_lt.mpr hle)
      · rename_i hov
        exact iff_of_true (by simp) ⟨hw, he, not_lt.mp hov⟩
  · rename_i hw
    have hwf : storeWanted cfg r cond obj = false := by
      cases hb : storeWanted cfg r cond obj <;> simp_all
    refine iff_of_false (by simp [passThrough]) ?_
    rintro ⟨h1, -, -⟩
    rw [h1] at hwf
    cases hwf

/-! ## Claim C2 -/

/-- Claim C2, refuted: the entry stored at 0 with `ttl = 10 ≥ 0` and
`staleTtl = 5 ≥ 0` is both fresh and `StaleButValid` at instant 3, since
the source's `StaleButValid` has no lower bound. -/
theorem c2_fresh_staleButValid_counterexample :
    0 ≤ entryBase.ttl ∧ 0 ≤ entryBase.staleTTL ∧
    Entry.Fresh entryBase 3 = true ∧ Entry.StaleButValid entryBase 3 = true := by
  decide

/-- Claim C2 as amended: for `ttl ≥ 0` and `staleTtl ≥ 0`, `Fresh`
implies `StaleButValid` (not its negation), because the source's
`StaleButValid(now)` is just `now < storedAt + ttl + staleTtl` with no
lower bound; the spec's stale window `storedAt + ttl ≤ now <
storedAt + ttl + staleTtl` is exactly `¬Fresh ∧ StaleButValid`, the
conjunction the handler actually uses at its call site. -/
theorem c2_stale_window_amended (e : Entry) (t : Int)
    (ht : 0 ≤ e.ttl) (hs : 0 ≤ e.staleTTL) :
    (e.Fresh t = true → e.StaleButValid t = true) ∧
    (e.StaleButValid t = true ↔ t < e.storedAt + e.ttl + e.staleTTL) ∧
    ((e.Fresh t = false ∧ e.StaleButValid t = true) ↔
      (e.storedAt + e.ttl ≤ t ∧ t < e.storedAt + e.ttl + e.staleTTL)) := by
  unfold Entry.Fresh Entry.StaleButValid
  refine ⟨?_, ?_, ?_⟩
  · intro h
    simp only [decide_eq_true_eq] at h ⊢
    omega
  · simp only [decide_eq_true_eq]
  · simp only [decide_eq_false_iff_not, decide_eq_true_eq, not_lt]

/-- Witness for the amended claim C2 at the concrete entry and `t = 12`. -/
theorem c2_stale_window_witness :
    (Entry.Fresh entryBase 12 = false ∧ Entry.StaleButValid entryBase 12 = true) ↔
      (entryBase.storedAt + entryBase.ttl ≤ 12 ∧
        12 < entryBase.storedAt + entryBase.ttl + entryBase.staleTTL) :=
  (c2_stale_window_amended entryBase 12 (by decide) (by decide)).2.2

/-! ## Claim C3 -/

/-- Claim C3, shown against the code: `checkToken` lowercases the whole
`Authorization` header before cutting the `bearer ` scheme, so a
configured token containing uppercase letters (here `Secret`) sent
verbatim as `Authorization: Bearer Secret` is rejected, while an
all-lowercase token is accepted; the claim (and the spec's
"scheme match case-insensitive") requires only the scheme word to be
case-folded, so the code is the slip. -/
theorem c3_bearer_case_eval :
    checkToken { reqGet with authorization := "Bearer Secret" } "Secret" = false ∧
    checkToken { reqGet with authorization := "Bearer hunter2" } "hunter2" = true ∧
    checkToken { reqGet with xAuthToken := "Secret" } "Secret" = true := by
  decide

/-! ## Claim C6 -/

/-- Claim C6, refuted: a GET request with no `Range` and
`Cache-Control: no-cacheable` has `shouldUseCache = false` in the
source (substring containment), while the claim's token-membership
reading (`specShouldUseCache`) says `true`. -/
theorem c6_token_membership_counterexample :
    (let r := { reqGet with cacheControl := "no-cacheable" }
     shouldUseCache r = false ∧ specShouldUseCache r = true ∧
       r.method = "GET" ∧ r.rangeH = "") := by
  decide

/-- Claim C6 as amended: `shouldUseCache(req)` is true iff the method is
GET, the `Range` header is absent, and the lowercased `Cache-Control`
does not contain `no-cache` or `max-age=0` — and the lowercased `Pragma`
does not contain `no-cache` — as substrings (case-insensitive substring
containment, not token membership: a longer token such as `no-cacheable`
also disables the cache). -/
theorem c6_substring_amended (r : Request) :
    shouldUseCache r = true ↔
      (r.method = "GET" ∧ r.rangeH = "" ∧
       strContains (toLowerStr r.cacheControl) "no-cache" = false ∧
       strContains (toLowerStr r.cacheControl) "max-age=0" = false ∧
       strContains (toLowerStr r.pragma) "no-cache" = false) := by
  unfold shouldUseCache
  split
  · rename_i h
    simp only [bne_iff_ne, ne_eq] at h
    simp [h]
  · split
    · rename_i h1 h2
      simp only [bne_iff_ne, ne_eq, not_not] at h1 h2
      simp [h1, h2]
    · split
      · rename_i h1 h2 h3
        simp only [bne_iff_ne, ne_eq, not_not] at h1 h2
        simp only [Bool.or_eq_true] at h3
        constructor
        · intro h; cases h
        · rintro ⟨-, -, hc1, hc2, -⟩
          rcases h3 with h3 | h3
          · rw [hc1] at h3; cases h3
          · rw [hc2] at h3; cases h3
      · split
        · rename_i h1 h2 h3 h4
          simp only [bne_iff_ne, ne_eq, not_not] at h1 h2
          constructor
          · intro h; cases h
          · rintro ⟨-, -, -, -, hp⟩
            rw [hp] at h4; cases h4
        · rename_i h1 h2 h3 h4
          simp only [bne_iff_ne, ne_eq, not_not] at h1 h2
          simp only [Bool.or_eq_true, not_or, Bool.not_eq_true] at h3
          simp only [Bool.not_eq_true] at h4
          simp [h1, h2, h3.1, h3.2, h4]

/-! ## Claim C1 -/

/-- Claim C1, evaluated at the failing input: under `MaxObjectSize = 2`,
an origin 200 whose declared `Content-Length` (2) passes admission but
whose stream holds `[1,2,3,4,5]` overflows the buffered read. The
handler abandons admission (no `Set`) and answers 200 `X-Cache: MISS`,
but the `io.Copy` pass-through starts after the 3 bytes the buffered
read already consumed: the client receives `[4,5]`, not the full body —
contradicting the claim (and scenario S5 / the pass-through glossary
entry), which promise the origin object's full byte sequence. -/
theorem c1_overflow_truncates_passthrough :
    (objectHandler cfgSmall reqGet none 0 (.success objLying)).status = 200 ∧
    (objectHandler cfgSmall reqGet none 0 (.success objLying)).xCache = some "MISS" ∧
    (objectHandler cfgSmall reqGet none 0 (.success objLying)).setOp = none ∧
    objLying.bytes = [1, 2, 3, 4, 5] ∧
    (objectHandler cfgSmall reqGet none 0 (.success objLying)).bodyWritten = [4, 5] := by
  decide

/-! ## Claim C4 -/

/-- Claim C4, refuted: when the admission path's buffered read fails,
the handler does not degrade to pass-through — it answers
502 Bad Gateway (middleware.go lines 217-221). The same request with a
working stream yields 200, so the error status is emitted solely because
the admission read failed. -/
theorem c4_read_error_counterexample :
    (objectHandler cfgSmall reqGet none 0 (.success objReadErr)).status = 502 ∧
    (objectHandler cfgSmall reqGet none 0 (.success objReadErr)).setOp = none ∧
    (objectHandler cfgSmall reqGet none 0
      (.success { objReadErr with readErr := false })).status = 200 := by
  decide

/-- Claim C4 as amended: for every GET request where the admission
path's buffered read of the origin body fails, the handler responds
502 Bad Gateway (not pass-through), and no cache entry is admitted. -/
theorem c4_read_error_amended (cfg : Config) (r : Request) (cached : Option Entry)
    (now : Int) (obj : Object)
    (hf : (objectHandler cfg r cached now (.success obj)).fetched = true)
    (he : obj.readErr = true)
    (hw : storeWanted cfg r (outgoingCond r (hintEntry r cached)) obj = true) :
    (objectHandler cfg r cached now (.success obj)).status = 502 ∧
    (objectHandler cfg r cached now (.success obj)).setOp = none := by
  rw [handler_fetched_eq cfg r cached now (.success obj) hf]
  simp [originPhase, successPhase, readAllLimited, hw, he]

/-- Witness for the amended claim C4 at the concrete failing stream. -/
theorem c4_read_error_witness :
    (objectHandler cfgSmall reqGet none 0 (.success objReadErr)).status = 502 ∧
    (objectHandler cfgSmall reqGet none 0 (.success objReadErr)).setOp = none :=
  c4_read_error_amended cfgSmall reqGet none 0 objReadErr (by decide) (by decide) (by decide)

/-! ## Claim C7 -/

/-- Claim C7, refuted: a POST to `/` (empty trimmed path, method not in
{GET, HEAD}) receives 404, not the claimed 405, because the source
checks the empty path before the method (middleware.go lines 152-166). -/
theorem c7_empty_path_counterexample :
    (objectHandler cfgSmall { reqGet with method := "POST", path := "/" } none 0
      OriginResult.transport).status = 404 ∧
    (objectHandler cfgSmall { reqGet with method := "POST", path := "/" } none 0
      OriginResult.transport).status ≠ 405 := by
  decide

/-- Claim C7 as amended: the handler's admission control applies its
checks in the order empty path → 404, then `..` segment → 400, then
method not GET/HEAD → 405; consequently a request with an empty path
and a method other than GET/HEAD receives 404, not 405. -/
theorem c7_admission_order_amended (cfg : Config) (r : Request) (cached : Option Entry)
    (now : Int) (orig : OriginResult) :
    (trimLeadSlash r.path = "" → (objectHandler cfg r cached now orig).status = 404) ∧
    (trimLeadSlash r.path ≠ "" → strContains (trimLeadSlash r.path) ".." = true →
      (objectHandler cfg r cached now orig).status = 400) ∧
    (trimLeadSlash r.path ≠ "" → strContains (trimLeadSlash r.path) ".." = false →
      r.method ≠ "GET" → r.method ≠ "HEAD" →
      (objectHandler cfg r cached now orig).status = 405) := by
  refine ⟨?_, ?_, ?_⟩
  · intro h1
    simp [objectHandler, h1]
  · intro h1 h2
    simp [objectHandler, h1, h2]
  · intro h1 h2 h3 h4
    simp [objectHandler, h1, h2, h3, h4]

/-- Witness for the amended claim C7: a POST to `/..` is rejected 400. -/
theorem c7_admission_order_witness :
    (objectHandler cfgSmall { reqGet with method := "POST", path := "/.." } none 0
      OriginResult.transport).status = 400 :=
  (c7_admission_order_amended cfgSmall { reqGet with method := "POST", path := "/.." }
    none 0 OriginResult.transport).2.1 (by decide) (by decide)

/-! ## Claim C5 -/

/-- Claim C5, refuted: the asynchronous revalidate task checks only
`0 < contentLength ≤ MaxObjectSize` and stores the origin object's
status unchecked (middleware.go lines 338-359), so a `Success` whose
`Content-Range` implies 206 Partial Content is admitted with status
206 — violating the spec invariant that every cached entry has status
200. -/
theorem c5_revalidate_206_counterexample :
    toObjectStatus "bytes 0-0/2" = 206 ∧ obj206.statusCode = 206 ∧
    (revalidate cfgSmall "k" entryBase 0 (.success obj206)).map
      (fun p => p.2.status) = some 206 := by
  decide

/-- Claim C5 as amended: the handler's own cache mutations (miss
admission and 304 re-admission) preserve the status-200 invariant —
any entry the handler stores has status 200 provided the hinted cached
entry (if any) had status 200 — but the asynchronous revalidate task's
replacement path stores the origin object's status with no 200 check,
so a 206 `Success` within the size bounds is admitted there. -/
theorem c5_status_amended :
    (∀ (cfg : Config) (r : Request) (cached : Option Entry) (now : Int)
        (orig : OriginResult) (k : String) (e2 : Entry),
      (∀ e, hintEntry r cached = some e → e.status = 200) →
      (objectHandler cfg r cached now orig).setOp = some (k, e2) →
      e2.status = 200) ∧
    (∀ (cfg : Config) (key : String) (entry : Entry) (now : Int) (obj : Object)
        (k : String) (e2 : Entry),
      revalidate cfg key entry now (.success obj) = some (k, e2) →
      e2.status = obj.statusCode) := by
  constructor
  · intro cfg r cached now orig k e2 hhint hset
    by_cases hf : (objectHandler cfg r cached now orig).fetched = true
    · rw [handler_fetched_eq cfg r cached now orig hf] at hset
      rcases originPhase_setOp_status cfg r (hintEntry r cached) now orig
          (trimLeadSlash r.path) k e2 hset with ⟨e, he, hst⟩ | ⟨obj, -, hst, h200⟩
      · rw [hst]; exact hhint e he
      · rw [hst, h200]
    · have hff : (objectHandler cfg r cached now orig).fetched = false := by
        cases hb : (objectHandler cfg r cached now orig).fetched <;> simp_all
      rw [handler_early_setOp cfg r cached now orig hff] at hset
      cases hset
  · intro cfg key entry now obj k e2 h
    unfold revalidate at h
    by_cases h1 : obj.contentLength ≤ 0
    · simp [h1] at h
    by_cases h2 : obj.contentLength > cfg.maxObjectSize
    · simp [h1, h2] at h
    cases hr : readAllLimited obj (cfg.maxObjectSize + 1) with
    | none => simp [h1, h2, hr] at h
    | some body =>
      by_cases hov : (body.length : Int) > cfg.maxObjectSize
      · simp [h1, h2, hr, hov] at h
      · simp [h1, h2, hr, hov] at h
        rw [← h.2, setNormalize_status]

/-- Witness for the amended claim C5: the miss admission for `objOk`
stores exactly `storedOk`, whose status is 200. -/
theorem c5_status_witness :
    (objectHandler cfgSmall reqGet none 0 (.success objOk)).setOp =
      some ("a.txt", storedOk) ∧ storedOk.status = 200 :=
  ⟨by decide,
   c5_status_amended.1 cfgSmall reqGet none 0 (.success objOk) "a.txt" storedOk
     (by intro e he
         rw [show hintEntry reqGet none = none from by simp [hintEntry]] at he
         cases he)
     (by decide)⟩

/-! ## Claim C8 -/

/-- Claim C8, confirmed: on a `Success` origin outcome that the handler
actually fetched, a cache entry is admitted iff `shouldUseCache` holds,
the method is GET, the outgoing conditional's `Range` is empty, the
object's status is 200, `0 < contentLength ≤ MaxObjectSize`, the
response `Cache-Control` lacks `no-store`, and the buffered read
succeeds without exceeding `MaxObjectSize`; in every other `Success`
case no cache mutation occurs. -/
theorem c8_admission_iff (cfg : Config) (r : Request) (cached : Option Entry)
    (now : Int) (obj : Object)
    (hf : (objectHandler cfg r cached now (.success obj)).fetched = true) :
    (objectHandler cfg r cached now (.success obj)).setOp.isSome = true ↔
      (shouldUseCache r = true ∧ r.method = "GET" ∧
       (outgoingCond r (hintEntry r cached)).rangeH = "" ∧
       obj.statusCode = 200 ∧ 0 < obj.contentLength ∧
       obj.contentLength ≤ cfg.maxObjectSize ∧
       hasNoStore obj.headers = false ∧
       obj.readErr = false ∧
       ((obj.bytes.take (cfg.maxObjectSize + 1).toNat).length : Int) ≤
         cfg.maxObjectSize) := by
  rw [handler_fetched_eq cfg r cached now (.success obj) hf]
  have hop : originPhase cfg r (hintEntry r cached) now (.success obj)
      (trimLeadSlash r.path) =
      successPhase cfg r (outgoingCond r (hintEntry r cached)) now obj
        (trimLeadSlash r.path) := rfl
  rw [hop, successPhase_setOp_isSome, storeWanted_iff]
  constructor
  · rintro ⟨⟨a1, a2, a3, a4, a5, a6, a7⟩, he, hov⟩
    exact ⟨a1, a2, a3, a4, a5, a6, a7, he, hov⟩
  · rintro ⟨a1, a2, a3, a4, a5, a6, a7, he, hov⟩
    exact ⟨⟨a1, a2, a3, a4, a5, a6, a7⟩, he, hov⟩

/-- Witness for claim C8 at the concrete admitting input. -/
theorem c8_admission_iff_witness :
    (objectHandler cfgSmall reqGet none 0 (.success objOk)).setOp.isSome = true ↔
      (shouldUseCache reqGet = true ∧ reqGet.method = "GET" ∧
       (outgoingCond reqGet (hintEntry reqGet none)).rangeH = "" ∧
       objOk.statusCode = 200 ∧ 0 < objOk.contentLength ∧
       objOk.contentLength ≤ cfgSmall.maxObjectSize ∧
       hasNoStore objOk.headers = false ∧
       objOk.readErr = false ∧
       ((objOk.bytes.take (cfgSmall.maxObjectSize + 1).toNat).length : Int) ≤
         cfgSmall.maxObjectSize) :=
  c8_admission_iff cfgSmall reqGet none 0 objOk (by decide)

/-! ## Claim C10 -/

/-- The `lruAdd` operation leaves the just-added pair at the front. -/
theorem lruAdd_head (cap : Nat) (st : LruState) (k : String) (e : Entry)
    (hcap : 0 < cap) :
    (lruAdd cap st k e).head? = some (k, e) := by
  unfold lruAdd
  split
  · rfl
  · dsimp only
    split
    · rename_i hlen
      cases st with
      | nil => simp at hlen; omega
      | cons a rest => rfl
    · rfl

/-- Claim C10, confirmed: `Cache.Set` rewrites the caller's record in
place — a `ttl` of exactly 0 becomes the configured default (likewise
`staleTTL`), a negative `ttl` is left unchanged — and the cache stores
that very record (the pair at the front of the LRU is the caller-visible
record), not a copy. -/
theorem c10_set_in_place (cap : Nat) (t s : Int) (st : LruState) (k : String)
    (e : Entry) (hcap : 0 < cap) :
    (e.ttl = 0 → ((cacheSet cap t s st k e).2).ttl = t) ∧
    (e.staleTTL = 0 → ((cacheSet cap t s st k e).2).staleTTL = s) ∧
    (e.ttl < 0 → ((cacheSet cap t s st k e).2).ttl = e.ttl) ∧
    (cacheSet cap t s st k e).1.head? = some (k, (cacheSet cap t s st k e).2) := by
  refine ⟨?_, ?_, ?_, ?_⟩
  · intro h
    show (setNormalize t s e).ttl = t
    rw [setNormalize_ttl, if_pos h]
  · intro h
    show (setNormalize t s e).staleTTL = s
    rw [setNormalize_staleTTL, if_pos h]
  · intro h
    show (setNormalize t s e).ttl = e.ttl
    rw [setNormalize_ttl, if_neg (by omega)]
  · exact lruAdd_head cap st k (setNormalize t s e) hcap

/-- Witness for claim C10 at a concrete entry with `ttl = 0`. -/
theorem c10_set_in_place_witness :
    ((cacheSet 1 300 120 [] "k" entryZeroTTL).2).ttl = 300 ∧
    (cacheSet 1 300 120 [] "k" entryZeroTTL).1.head? =
      some ("k", (cacheSet 1 300 120 [] "k" entryZeroTTL).2) :=
  ⟨(c10_set_in_place 1 300 120 [] "k" entryZeroTTL (by decide)).1 rfl,
   (c10_set_in_place 1 300 120 [] "k" entryZeroTTL (by decide)).2.2.2⟩

/-! ## Claim C9 -/

/-- Truncating the second summand of an append before a `take` of the
same length changes nothing. -/
theorem take_append_take {α : Type} (A B : List α) (n : Nat) :
    (A ++ B.take n).take n = (A ++ B).take n := by
  rw [List.take_append_eq_append_take, List.take_append_eq_append_take, List.take_take]
  congr 1
  rw [Nat.min_eq_left (Nat.sub_le n A.length)]

/-- The `lruHasKey` test is membership in the key column. -/
theorem lruHasKey_iff (st : LruState) (k : String) :
    lruHasKey st k = true ↔ k ∈ st.map Prod.fst := by
  unfold lruHasKey
  simp only [List.any_eq_true, List.mem_map, beq_iff_eq]

/-- Adding a fresh key to an LRU within capacity is push-front plus
truncation to the capacity. -/
theorem lruAdd_of_new (cap : Nat) (st : LruState) (k : String) (e : Entry)
    (hk : lruHasKey st k = false) (hle : st.length ≤ cap) :
    lruAdd cap st k e = ((k, e) :: st).take cap := by
  unfold lruAdd
  rw [hk]
  simp only [Bool.false_eq_true, if_false]
  split
  · rename_i hlen
    rw [List.dropLast_eq_take]
    congr 1
    simp only [List.length_cons] at hlen ⊢
    omega
  · rename_i hlen
    simp only [List.length_cons, not_lt] at hlen
    exact (List.take_of_length_le (by simpa using hlen)).symm

/-- Folding `Set` over fresh distinct keys from any small enough state:
the key column afterwards is the reversed sequence of new keys followed
by the old keys, truncated to the capacity. -/
theorem runSets_keys (cap : Nat) (t s : Int) :
    ∀ (ops : List (String × Entry)) (st : LruState),
      (ops.map Prod.fst ++ st.map Prod.fst).Nodup → st.length ≤ cap →
      ((ops.foldl (fun acc p => (cacheSet cap t s acc p.1 p.2).1) st).map Prod.fst =
        ((ops.map Prod.fst).reverse ++ st.map Prod.fst).take cap) := by
  intro ops
  induction ops with
  | nil =>
    intro st h hle
    simp only [List.foldl_nil, List.map_nil, List.reverse_nil, List.nil_append]
    rw [List.take_of_length_le (by simpa using hle)]
  | cons p rest ih =>
    intro st h hle
    simp only [List.map_cons, List.cons_append, List.nodup_cons] at h
    obtain ⟨hnotin, hnd⟩ := h
    have hk : lruHasKey st p.1 = false := by
      cases hb : lruHasKey st p.1
      · rfl
      · exact absurd (List.mem_append_right _ ((lruHasKey_iff st p.1).mp hb)) hnotin
    have hstep : (cacheSet cap t s st p.1 p.2).1 =
        ((p.1, setNormalize t s p.2) :: st).take cap :=
      lruAdd_of_new cap st p.1 (setNormalize t s p.2) hk hle
    have hsub : ((((p.1, setNormalize t s p.2) :: st).take cap).map Prod.fst).Sublist
        (p.1 :: st.map Prod.fst) := by
      rw [List.map_take, List.map_cons]
      exact List.take_sublist cap _
    have hbig : (rest.map Prod.fst ++ (p.1 :: st.map Prod.fst)).Nodup := by
      have h1 : (p.1 :: (rest.map Prod.fst ++ st.map Prod.fst)).Nodup :=
        List.nodup_cons.mpr ⟨hnotin, hnd⟩
      exact h1.perm List.perm_middle.symm
    have hnodup1 : (rest.map Prod.fst ++
        (((p.1, setNormalize t s p.2) :: st).take cap).map Prod.fst).Nodup :=
      List.Nodup.sublist (hsub.append_left (rest.map Prod.fst)) hbig
    have hlen1 : (((p.1, setNormalize t s p.2) :: st).take cap).length ≤ cap :=
      List.length_take_le cap _
    simp only [List.foldl_cons]
    rw [hstep, ih _ hnodup1 hlen1]
    rw [List.map_take, List.map_cons, take_append_take]
    simp only [List.map_cons, List.reverse_cons, List.append_assoc, List.singleton_append]

/-- Claim C9, confirmed: after a sequence of `Set` on `N` distinct keys
with `N > Capacity` (no other operations interleaved), `Stats()` reports
`size = Capacity`, and the keys absent from the cache are exactly the
first `N − Capacity` keys of the sequence — the least recently
`Set` ones. -/
theorem c9_lru_capacity (cap : Nat) (t s : Int) (ops : List (String × Entry))
    (hcap : 0 < cap) (hnd : (ops.map Prod.fst).Nodup) (hlen : cap < ops.length) :
    cacheStats cap (runSets cap t s ops) = (cap, cap) ∧
    ∀ k ∈ ops.map Prod.fst,
      (lruHasKey (runSets cap t s ops) k = false ↔
        k ∈ (ops.map Prod.fst).take (ops.length - cap)) := by
  have hkeys : (runSets cap t s ops).map Prod.fst =
      ((ops.map Prod.fst).reverse).take cap := by
    have h0 := runSets_keys cap t s ops [] (by simpa using hnd) (by simp)
    simpa [runSets] using h0
  have hlenkeys : (runSets cap t s ops).length = cap := by
    have h2 := congrArg List.length hkeys
    simp only [List.length_map, List.length_take, List.length_reverse] at h2
    rw [h2, Nat.min_eq_left (Nat.le_of_lt hlen)]
  constructor
  · simp [cacheStats, hlenkeys]
  · intro k hk
    have hmem : lruHasKey (runSets cap t s ops) k = true ↔
        k ∈ (ops.map Prod.fst).drop (ops.length - cap) := by
      rw [lruHasKey_iff, hkeys, List.take_reverse, List.mem_reverse, List.length_map]
    have hsplit := List.take_append_drop (ops.length - cap) (ops.map Prod.fst)
    have hdisj : ∀ a, a ∈ (ops.map Prod.fst).take (ops.length - cap) →
        a ∉ (ops.map Prod.fst).drop (ops.length - cap) := by
      have h2 : ((ops.map Prod.fst).take (ops.length - cap) ++
          (ops.map Prod.fst).drop (ops.length - cap)).Nodup := by
        rw [hsplit]; exact hnd
      rw [List.nodup_append] at h2
      exact fun a ha hb => h2.2.2 ha hb
    constructor
    · intro hfalse
      have hnotmem : k ∉ (ops.map Prod.fst).drop (ops.length - cap) := by
        intro hm
        rw [hmem.mpr hm] at hfalse
        cases hfalse
      rw [← hsplit] at hk
      rcases List.mem_append.mp hk with h | h
      · exact h
      · exact absurd h hnotmem
    · intro htake
      cases hb : lruHasKey (runSets cap t s ops) k
      · rfl
      · exact absurd (hmem.mp hb) (hdisj k htake)

/-- Witness for claim C9: two distinct keys into a capacity-1 cache —
the size becomes 1 and the first key is exactly the missing one. -/
theorem c9_lru_capacity_witness :
    cacheStats 1 (runSets 1 300 120 opsW) = (1, 1) ∧
    (lruHasKey (runSets 1 300 120 opsW) "a" = false ↔
      "a" ∈ (opsW.map Prod.fst).take (opsW.length - 1)) :=
  ⟨(c9_lru_capacity 1 300 120 opsW (by decide) (by decide) (by decide)).1,
   (c9_lru_capacity 1 300 120 opsW (by decide) (by decide) (by decide)).2 "a" (by decide)⟩
